import Mathlib

/-
Verification of the Illyria-scraper transport and extraction layer.

The repository bundles two revisions of the retry wrapper in
src/utils/request.ts.  The integration test suite
(src/tests/request.integration.test.ts) pins the second revision: it
expects a null result after exhausted retries, the error message
"Invalid endpoint: invalid", a 60000 ms audio timeout, and warn-level
retry logging.  The definitions below therefore embed that revision;
the classification function of the sibling revision (isRetryableError)
is also embedded because the specification refers to it.
-/

/-! ## JavaScript value model

JSVal models the dynamic values the normalizer undefinedFields works
on: undefined, null, booleans, numbers (as integers), strings, arrays
and plain objects (ordered field lists, as Object.entries yields them).
-/

inductive JSVal where
  | undef : JSVal
  | null : JSVal
  | bool : Bool → JSVal
  | num : Int → JSVal
  | str : String → JSVal
  | arr : List JSVal → JSVal
  | obj : List (String × JSVal) → JSVal
deriving Repr

/-- JavaScript truthiness: undefined, null, false, 0 and the empty
string are falsy; every array and every object (empty ones included)
is truthy. -/
def truthy : JSVal → Bool
  | .undef => false
  | .null => false
  | .bool b => b
  | .num n => n != 0
  | .str s => s != ""
  | .arr _ => true
  | .obj _ => true

/-- Model of the isObject guard in the source: typeof value is
"object", which in JavaScript holds for null, arrays and objects. -/
def isObject : JSVal → Bool
  | .null => true
  | .arr _ => true
  | .obj _ => true
  | _ => false

mutual

/-- Structural size of a JSVal, used as fuel for undefinedFields. -/
def jsSize : JSVal → Nat
  | .arr xs => 1 + jsSizeList xs
  | .obj fs => 1 + jsSizeFields fs
  | _ => 1

def jsSizeList : List JSVal → Nat
  | [] => 0
  | v :: rest => 1 + jsSize v + jsSizeList rest

def jsSizeFields : List (String × JSVal) → Nat
  | [] => 0
  | (_, v) :: rest => 1 + jsSize v + jsSizeFields rest

end

/-- Fueled version of undefinedFields.  The fuel only serves
structural termination; with fuel at least jsSize of the argument the
fuel-zero branch is unreachable (undefinedFieldsFuel_congr below).
Arrays: filter out falsy elements, then recurse into object-like
elements.  Objects: keep only entries whose value is truthy, then
recurse into object-like values.  Everything else is returned as is,
matching the source, which only ever calls the function on arrays and
objects. -/
def undefinedFieldsFuel : Nat → JSVal → JSVal
  | fuel + 1, .arr xs =>
    .arr ((xs.filter truthy).map fun v =>
      if isObject v then undefinedFieldsFuel fuel v else v)
  | fuel + 1, .obj fs =>
    .obj ((fs.filter fun p => truthy p.2).map fun p =>
      (p.1, if isObject p.2 then undefinedFieldsFuel fuel p.2 else p.2))
  | _, v => v

/-- Embedding of undefinedFields from src/utils/request.ts (also
present verbatim in the extraction utilities file). -/
def undefinedFields (v : JSVal) : JSVal :=
  undefinedFieldsFuel (jsSize v) v

theorem map_congr_mem {α β : Type} {l : List α} {f g : α → β}
    (h : ∀ a ∈ l, f a = g a) : l.map f = l.map g := by
  induction l with
  | nil => rfl
  | cons a l ih =>
    simp only [List.map_cons]
    rw [h a (List.mem_cons_self a l), ih fun a ha => h a (List.mem_cons_of_mem _ ha)]

theorem jsSize_pos (v : JSVal) : 1 ≤ jsSize v := by
  cases v <;> simp [jsSize]

theorem jsSizeList_lt_of_mem {u : JSVal} {xs : List JSVal}
    (h : u ∈ xs) : jsSize u < 1 + jsSizeList xs := by
  induction xs with
  | nil => cases h
  | cons v rest ih =>
    rcases List.mem_cons.mp h with rfl | h2
    · simp [jsSizeList]
      omega
    · have := ih h2
      simp [jsSizeList]
      omega

theorem jsSizeFields_lt_of_mem {p : String × JSVal} {fs : List (String × JSVal)}
    (h : p ∈ fs) : jsSize p.2 < 1 + jsSizeFields fs := by
  induction fs with
  | nil => cases h
  | cons q rest ih =>
    rcases List.mem_cons.mp h with rfl | h2
    · obtain ⟨k, v⟩ := p
      simp [jsSizeFields]
      omega
    · have := ih h2
      obtain ⟨k, v⟩ := q
      simp [jsSizeFields]
      omega

theorem undefinedFieldsFuel_atom (f : Nat) (v : JSVal)
    (ha : isObject v = false) :
    undefinedFieldsFuel f v = v := by
  cases f <;> cases v <;> first | rfl | (simp [isObject] at ha)

theorem undefinedFieldsFuel_null (f : Nat) :
    undefinedFieldsFuel f JSVal.null = JSVal.null := by
  cases f <;> rfl

theorem undefinedFieldsFuel_congr :
    ∀ (n : Nat) (v : JSVal), jsSize v ≤ n →
      ∀ f g, jsSize v ≤ f → jsSize v ≤ g →
        undefinedFieldsFuel f v = undefinedFieldsFuel g v := by
  intro n
  induction n using Nat.strong_induction_on with
  | _ n ih =>
    intro v hv f g hf hg
    cases v with
    | arr xs =>
      have hs : jsSize (JSVal.arr xs) = 1 + jsSizeList xs := by simp [jsSize]
      have hf1 : 1 ≤ f := le_trans (jsSize_pos _) hf
      have hg1 : 1 ≤ g := le_trans (jsSize_pos _) hg
      obtain ⟨f1, rfl⟩ : ∃ f1, f = f1 + 1 := ⟨f - 1, by omega⟩
      obtain ⟨g1, rfl⟩ : ∃ g1, g = g1 + 1 := ⟨g - 1, by omega⟩
      simp only [undefinedFieldsFuel]
      congr 1
      apply map_congr_mem
      intro u hu
      have hmem : u ∈ xs := List.mem_of_mem_filter hu
      have hlt : jsSize u < 1 + jsSizeList xs := jsSizeList_lt_of_mem hmem
      by_cases ho : isObject u
      · simp only [ho, if_true]
        exact ih (jsSize u) (by omega) u le_rfl f1 g1 (by omega) (by omega)
      · simp [ho]
    | obj fs =>
      have hs : jsSize (JSVal.obj fs) = 1 + jsSizeFields fs := by simp [jsSize]
      have hf1 : 1 ≤ f := le_trans (jsSize_pos _) hf
      have hg1 : 1 ≤ g := le_trans (jsSize_pos _) hg
      obtain ⟨f1, rfl⟩ : ∃ f1, f = f1 + 1 := ⟨f - 1, by omega⟩
      obtain ⟨g1, rfl⟩ : ∃ g1, g = g1 + 1 := ⟨g - 1, by omega⟩
      simp only [undefinedFieldsFuel]
      congr 1
      apply map_congr_mem
      intro p hp
      have hmem : p ∈ fs := List.mem_of_mem_filter hp
      have hlt : jsSize p.2 < 1 + jsSizeFields fs := jsSizeFields_lt_of_mem hmem
      by_cases ho : isObject p.2
      · simp only [ho, if_true]
        congr 1
        exact ih (jsSize p.2) (by omega) p.2 le_rfl f1 g1 (by omega) (by omega)
      · simp [ho]
    | undef =>
      rw [undefinedFieldsFuel_atom _ JSVal.undef rfl,
        undefinedFieldsFuel_atom _ JSVal.undef rfl]
    | null => rw [undefinedFieldsFuel_null, undefinedFieldsFuel_null]
    | bool b =>
      rw [undefinedFieldsFuel_atom _ (JSVal.bool b) rfl,
        undefinedFieldsFuel_atom _ (JSVal.bool b) rfl]
    | num m =>
      rw [undefinedFieldsFuel_atom _ (JSVal.num m) rfl,
        undefinedFieldsFuel_atom _ (JSVal.num m) rfl]
    | str s =>
      rw [undefinedFieldsFuel_atom _ (JSVal.str s) rfl,
        undefinedFieldsFuel_atom _ (JSVal.str s) rfl]

/-- Unfolding equation for undefinedFields on objects: keep the truthy
entries and recurse into object-like values. -/
theorem undefinedFields_obj (fs : List (String × JSVal)) :
    undefinedFields (JSVal.obj fs) =
      JSVal.obj ((fs.filter fun p => truthy p.2).map fun p =>
        (p.1, if isObject p.2 then undefinedFields p.2 else p.2)) := by
  have hs : jsSize (JSVal.obj fs) = jsSizeFields fs + 1 := by
    simp [jsSize]
    omega
  unfold undefinedFields
  rw [hs]
  simp only [undefinedFieldsFuel]
  congr 1
  apply map_congr_mem
  intro p hp
  have hmem : p ∈ fs := List.mem_of_mem_filter hp
  have hlt : jsSize p.2 < 1 + jsSizeFields fs := jsSizeFields_lt_of_mem hmem
  by_cases ho : isObject p.2
  · simp only [ho, if_true]
    congr 1
    exact undefinedFieldsFuel_congr (jsSizeFields fs) p.2 (by omega) _ _ (by omega) le_rfl
  · simp [ho]

/-- Unfolding equation for undefinedFields on arrays: drop the falsy
elements and recurse into object-like elements. -/
theorem undefinedFields_arr (xs : List JSVal) :
    undefinedFields (JSVal.arr xs) =
      JSVal.arr ((xs.filter truthy).map fun v =>
        if isObject v then undefinedFields v else v) := by
  have hs : jsSize (JSVal.arr xs) = jsSizeList xs + 1 := by
    simp [jsSize]
    omega
  unfold undefinedFields
  rw [hs]
  simp only [undefinedFieldsFuel]
  congr 1
  apply map_congr_mem
  intro u hu
  have hmem : u ∈ xs := List.mem_of_mem_filter hu
  have hlt : jsSize u < 1 + jsSizeList xs := jsSizeList_lt_of_mem hmem
  by_cases ho : isObject u
  · simp only [ho, if_true]
    exact undefinedFieldsFuel_congr (jsSizeList xs) u (by omega) _ _ (by omega) le_rfl
  · simp [ho]

/-! ## URL escaping

Model of the ECMAScript encodeURIComponent built-in: ASCII letters,
digits and the marks - _ . ! ~ * apostrophe ( ) pass through; every
other character is utf-8 encoded and each byte written as a percent
escape with uppercase hex digits. -/

/-- Characters left unescaped by encodeURIComponent. -/
def uriUnescaped (c : Char) : Bool :=
  c.isAlpha || c.isDigit || c = '-' || c = '_' || c = '.' || c = '!' ||
    c = '~' || c = '*' || c.toNat = 39 || c = '(' || c = ')'

/-- Utf-8 byte sequence of a single character. -/
def utf8Bytes (c : Char) : List Nat :=
  let n := c.toNat
  if n < 0x80 then [n]
  else if n < 0x800 then
    [0xC0 ||| (n >>> 6), 0x80 ||| (n &&& 0x3F)]
  else if n < 0x10000 then
    [0xE0 ||| (n >>> 12), 0x80 ||| ((n >>> 6) &&& 0x3F), 0x80 ||| (n &&& 0x3F)]
  else
    [0xF0 ||| (n >>> 18), 0x80 ||| ((n >>> 12) &&& 0x3F),
      0x80 ||| ((n >>> 6) &&& 0x3F), 0x80 ||| (n &&& 0x3F)]

/-- Uppercase hex digit. -/
def hexDigitChar (n : Nat) : Char :=
  if n < 10 then Char.ofNat (48 + n) else Char.ofNat (55 + n)

/-- Percent escape of one byte, uppercase hex. -/
def percentEncode (b : Nat) : String :=
  "%" ++ (hexDigitChar (b / 16)).toString ++ (hexDigitChar (b % 16)).toString

/-- Model of encodeURIComponent. -/
def encodeURIComponent (s : String) : String :=
  String.join (s.data.map fun c =>
    if uriUnescaped c then c.toString
    else String.join ((utf8Bytes c).map percentEncode))

/-! ## Transport layer: request construction

Embedding of retrieve from src/utils/request.ts (the revision the test
suite pins).  Parameters are modeled as a JavaScript style record with
optional fields: the source casts the parameter object per endpoint
and reads only the fields of that endpoint, so missing fields simply
read as undefined.  The user agent header is randomized per call and
carries no logic, so it is left out of the request description. -/

structure ReqParams where
  body : Option String := none
  source : Option String := none
  target : Option String := none
  query : Option String := none
  lang : Option String := none
  text : Option String := none
  textLength : Option Int := none
  speed : Option Int := none
deriving Repr, DecidableEq

/-- JavaScript string interpolation of a possibly missing string. -/
def jsStr : Option String → String
  | none => "undefined"
  | some s => s

/-- JavaScript string interpolation of a possibly missing number. -/
def jsNum : Option Int → String
  | none => "undefined"
  | some n => toString n

/-- Description of the HTTP call retrieve issues. -/
structure RequestConfig where
  method : String
  url : String
  postBody : Option String := none
  contentTypeForm : Bool := false
  responseTypeArrayBuffer : Bool := false
  timeout : Nat
deriving Repr, DecidableEq

/-- Embedding of retrieve: builds the endpoint specific request, or
throws (error channel) the synchronous invalid endpoint error.  Note
that the text and audio branches apply encodeURIComponent to the query
and text parameters themselves. -/
def retrieve (endpoint : String) (params : ReqParams) :
    Except String RequestConfig :=
  if endpoint = "info" then
    Except.ok
      { method := "POST"
        url := "https://translate.google.com/_/TranslateWebserverUi/data/batchexecute?rpcids=MkEWBc&rt=c"
        postBody := params.body
        contentTypeForm := true
        timeout := 30000 }
  else if endpoint = "text" then
    Except.ok
      { method := "GET"
        url := "https://translate.google.com/m?sl=" ++ jsStr params.source ++
          "&tl=" ++ jsStr params.target ++
          "&q=" ++ encodeURIComponent (jsStr params.query)
        timeout := 30000 }
  else if endpoint = "audio" then
    Except.ok
      { method := "GET"
        url := "https://translate.google.com/translate_tts?tl=" ++ jsStr params.lang ++
          "&q=" ++ encodeURIComponent (jsStr params.text) ++
          "&textlen=" ++ jsNum params.textLength ++
          "&speed=" ++ jsNum params.speed ++ "&client=tw-ob"
        responseTypeArrayBuffer := true
        timeout := 60000 }
  else
    Except.error ("Invalid endpoint: " ++ endpoint)

/-! ## Transport layer: retry pipeline

Embedding of the doing combinator.  The transport oracle t gives the
outcome of the HTTP attempt issued with a given attempt counter; the
callback is the post-processing function.  The result pairs the
resolved value with the number of HTTP attempts issued.  The Except
error channel models a rejection of the caller visible promise; the
embedded revision never uses it, which is exactly the never-reject
contract under verification. -/

/-- An axios failure: status is the HTTP status when a response
arrived, none for a connection-level failure without response. -/
structure AxiosErr where
  status : Option Nat
deriving Repr, DecidableEq

/-- Retry classification of the embedded revision:
not error.response, or error.response.status at least 500. -/
def shouldRetry (e : AxiosErr) : Bool :=
  match e.status with
  | none => true
  | some s => decide (500 ≤ s)

/-- Retry classification of the sibling revision of request.ts (kept
for reference; the revision the test suite pins does not use it):
no response, or 5xx, or 429. -/
def isRetryableError (e : AxiosErr) : Bool :=
  match e.status with
  | none => true
  | some s => decide (500 ≤ s) || decide (s = 429)

/-- Embedding of isEmpty: falsy, or an array of length zero. -/
def isEmpty (item : JSVal) : Bool :=
  !truthy item ||
    (match item with
      | JSVal.arr xs => decide (xs.length = 0)
      | _ => false)

/-- The nullish coalescing result ?? null at the end of doing. -/
def nullish : JSVal → JSVal
  | JSVal.undef => JSVal.null
  | JSVal.null => JSVal.null
  | v => v

/-- One logical call of doing starting at a given attempt counter.
The structure mirrors the promise chain: on a fulfilled attempt apply
the callback and re-issue the call with an incremented counter when
the result is empty and fewer than 3 retries were attempted; on a
rejected attempt log, then re-issue under the same cap when the error
has no response or a 5xx status, otherwise resolve null.  The fuel
argument only serves structural termination: the attempt counter guard
makes the recursion depth at most 3, so fuel 4 is never exhausted
(doingGo_fuel_congr below). -/
def doingGo (t : Nat → Except AxiosErr JSVal) (cb : JSVal → JSVal) :
    Nat → Nat → Except String (JSVal × Nat)
  | retry, fuel + 1 =>
    match t retry with
    | Except.ok response =>
      let result := cb response
      if isEmpty result = true ∧ retry < 3 then
        (doingGo t cb (retry + 1) fuel).map fun p => (p.1, p.2 + 1)
      else
        Except.ok (nullish result, 1)
    | Except.error e =>
      if shouldRetry e = true ∧ retry < 3 then
        (doingGo t cb (retry + 1) fuel).map fun p => (p.1, p.2 + 1)
      else
        Except.ok (JSVal.null, 1)
  | retry, 0 =>
    match t retry with
    | Except.ok response => Except.ok (nullish (cb response), 1)
    | Except.error _ => Except.ok (JSVal.null, 1)

/-- The caller visible pipeline: request(endpoint).with(params).doing(cb)
starts with attempt counter 0. -/
def doing (t : Nat → Except AxiosErr JSVal) (cb : JSVal → JSVal) :
    Except String (JSVal × Nat) :=
  doingGo t cb 0 4

/-! ## Public text endpoint caller

Embedding of the request-building part of getTranslationText from
src/text.ts: the caller escapes the query once, gates on the escaped
length, and only then hands the escaped query to the transport layer.
The language codes arrive here already mapped by mapGoogleCode, whose
lookup table lives outside the embedded core; they are passed through
as opaque strings.  A none result means the function resolved null
without issuing any network call. -/
def getTranslationTextRequest (parsedSource parsedTarget query : String) :
    Option (Except String RequestConfig) :=
  let encodedQuery := encodeURIComponent query
  if encodedQuery.length > 7500 then none
  else
    some (retrieve "text"
      { source := some parsedSource
        target := some parsedTarget
        query := some encodedQuery })

/-! ## Response extractor: extra translations

Embedding of list.translations from the extraction utilities.  The
argument is the optional group array found at extra[5][0] of the
metadata payload (none when extra, extra[5] or extra[5][0] is
missing).  Each group is a pair of a type tag and an optional entry
list; each raw entry carries word, optional article, meanings and the
raw frequency rank. -/

structure RawExtraTransEntry where
  word : String
  article : Option String
  meanings : List String
  frequency : Int
deriving Repr, DecidableEq

structure RawExtraTransGroup where
  type : String
  transList : Option (List RawExtraTransEntry)
deriving Repr, DecidableEq

structure ExtraTransEntry where
  word : String
  article : Option String
  meanings : List String
  frequency : Int
deriving Repr, DecidableEq

structure ExtraTransGroup where
  type : String
  list : List ExtraTransEntry
deriving Repr, DecidableEq

/-- One emitted entry: word, article (null collapsed to undefined,
both none here), meanings, and the inverted frequency 4 - raw. -/
def extraTransEntry (e : RawExtraTransEntry) : ExtraTransEntry :=
  { word := e.word
    article := e.article
    meanings := e.meanings
    frequency := 4 - e.frequency }

/-- Embedding of list.translations: map the groups when present,
else the empty list; inside a group map the entries when present,
else the empty list. -/
def list_translations (slot : Option (List RawExtraTransGroup)) :
    List ExtraTransGroup :=
  (slot.map fun groups =>
    groups.map fun g =>
      { type := g.type
        list := ((g.transList.map fun ts => ts.map extraTransEntry).getD []) }).getD []

/-! ## Helper lemmas about the retry pipeline -/

theorem doingGo_ok (t : Nat → Except AxiosErr JSVal) (cb : JSVal → JSVal) :
    ∀ (fuel retry : Nat), ∃ v n, doingGo t cb retry fuel = Except.ok (v, n) := by
  intro fuel
  induction fuel with
  | zero =>
    intro retry
    cases h : t retry with
    | ok r => exact ⟨nullish (cb r), 1, by simp [doingGo, h]⟩
    | error e => exact ⟨JSVal.null, 1, by simp [doingGo, h]⟩
  | succ fuel ih =>
    intro retry
    cases h : t retry with
    | ok r =>
      by_cases hc : isEmpty (cb r) = true ∧ retry < 3
      · obtain ⟨v, n, hv⟩ := ih (retry + 1)
        refine ⟨v, n + 1, ?_⟩
        simp only [doingGo, h]
        rw [if_pos hc, hv]
        rfl
      · refine ⟨nullish (cb r), 1, ?_⟩
        simp only [doingGo, h]
        rw [if_neg hc]
    | error e =>
      by_cases hc : shouldRetry e = true ∧ retry < 3
      · obtain ⟨v, n, hv⟩ := ih (retry + 1)
        refine ⟨v, n + 1, ?_⟩
        simp only [doingGo, h]
        rw [if_pos hc, hv]
        rfl
      · refine ⟨JSVal.null, 1, ?_⟩
        simp only [doingGo, h]
        rw [if_neg hc]

theorem doingGo_count_bounds (t : Nat → Except AxiosErr JSVal) (cb : JSVal → JSVal) :
    ∀ (fuel retry : Nat) (v : JSVal) (n : Nat),
      doingGo t cb retry fuel = Except.ok (v, n) →
        1 ≤ n ∧ n ≤ max 1 (4 - retry) := by
  intro fuel
  induction fuel with
  | zero =>
    intro retry v n h
    cases ht : t retry <;> simp [doingGo, ht] at h <;> omega
  | succ fuel ih =>
    intro retry v n h
    cases ht : t retry with
    | ok r =>
      simp only [doingGo, ht] at h
      by_cases hc : isEmpty (cb r) = true ∧ retry < 3
      · rw [if_pos hc] at h
        cases hrec : doingGo t cb (retry + 1) fuel with
        | error e2 => rw [hrec] at h; simp [Except.map] at h
        | ok p =>
          rw [hrec] at h
          simp [Except.map] at h
          obtain ⟨hv, hn⟩ := h
          have hb := ih (retry + 1) p.1 p.2 (by rw [hrec])
          omega
      · rw [if_neg hc] at h
        simp at h
        omega
    | error e =>
      simp only [doingGo, ht] at h
      by_cases hc : shouldRetry e = true ∧ retry < 3
      · rw [if_pos hc] at h
        cases hrec : doingGo t cb (retry + 1) fuel with
        | error e2 => rw [hrec] at h; simp [Except.map] at h
        | ok p =>
          rw [hrec] at h
          simp [Except.map] at h
          obtain ⟨hv, hn⟩ := h
          have hb := ih (retry + 1) p.1 p.2 (by rw [hrec])
          omega
      · rw [if_neg hc] at h
        simp at h
        omega

theorem doingGo_all_error_null (t : Nat → Except AxiosErr JSVal)
    (cb : JSVal → JSVal) (hall : ∀ i, ∃ e, t i = Except.error e) :
    ∀ (fuel retry : Nat), ∃ n, doingGo t cb retry fuel = Except.ok (JSVal.null, n) := by
  intro fuel
  induction fuel with
  | zero =>
    intro retry
    obtain ⟨e, he⟩ := hall retry
    exact ⟨1, by simp [doingGo, he]⟩
  | succ fuel ih =>
    intro retry
    obtain ⟨e, he⟩ := hall retry
    by_cases hc : shouldRetry e = true ∧ retry < 3
    · obtain ⟨n, hn⟩ := ih (retry + 1)
      refine ⟨n + 1, ?_⟩
      simp only [doingGo, he]
      rw [if_pos hc, hn]
      rfl
    · refine ⟨1, ?_⟩
      simp only [doingGo, he]
      rw [if_neg hc]

theorem doingGo_fuel_congr (t : Nat → Except AxiosErr JSVal) (cb : JSVal → JSVal) :
    ∀ (f g retry : Nat), 3 - retry < f → 3 - retry < g →
      doingGo t cb retry f = doingGo t cb retry g := by
  intro f
  induction f with
  | zero => intro g retry hf; omega
  | succ f ih =>
    intro g retry hf hg
    obtain ⟨g1, rfl⟩ : ∃ g1, g = g1 + 1 := ⟨g - 1, by omega⟩
    cases ht : t retry with
    | ok r =>
      simp only [doingGo, ht]
      by_cases hc : isEmpty (cb r) = true ∧ retry < 3
      · rw [if_pos hc, if_pos hc, ih g1 (retry + 1) (by omega) (by omega)]
      · rw [if_neg hc, if_neg hc]
    | error e =>
      simp only [doingGo, ht]
      by_cases hc : shouldRetry e = true ∧ retry < 3
      · rw [if_pos hc, if_pos hc, ih g1 (retry + 1) (by omega) (by omega)]
      · rw [if_neg hc, if_neg hc]

theorem nullish_of_not_empty {r : JSVal} (h : isEmpty r = false) :
    nullish r = r := by
  cases r <;> first | rfl | (simp [isEmpty, truthy] at h)

/-! ## Claims -/

/-- C1: For every endpoint and parameter set, when the HTTP call fails
with a non-retryable error, or when all retries are exhausted, the
retry wrapper resolves to null and never rejects the caller visible
promise; the invalid endpoint check in retrieve is the only error
path.  Conjuncts: (1) doing never uses the rejection channel, for any
transport, callback, attempt counter and fuel; (2) a non-retryable
failure of the first attempt resolves (null, one call); (3) if every
attempt fails, retryably or not, the pipeline resolves null; (4)
retrieve errors exactly on endpoints outside the fixed three-way
enumeration. -/
theorem C1_resolves_absent_never_rejects (t : Nat → Except AxiosErr JSVal)
    (cb : JSVal → JSVal) :
    (∀ retry fuel, ∃ v n, doingGo t cb retry fuel = Except.ok (v, n)) ∧
    (∀ e, t 0 = Except.error e → shouldRetry e = false →
      doing t cb = Except.ok (JSVal.null, 1)) ∧
    ((∀ i, ∃ e, t i = Except.error e) →
      ∃ n, doing t cb = Except.ok (JSVal.null, n)) ∧
    (∀ endpoint p, (∃ msg, retrieve endpoint p = Except.error msg) ↔
      ¬(endpoint = "info" ∨ endpoint = "text" ∨ endpoint = "audio")) := by
  refine ⟨fun retry fuel => doingGo_ok t cb fuel retry, ?_, ?_, ?_⟩
  · intro e h0 hsr
    show doingGo t cb 0 4 = _
    simp only [doingGo, h0]
    rw [if_neg (by simp [hsr])]
  · intro hall
    exact doingGo_all_error_null t cb hall 4 0
  · intro endpoint p
    constructor
    · rintro ⟨msg, hm⟩ hvalid
      rcases hvalid with h | h | h <;> subst h <;> simp [retrieve] at hm
    · intro hninv
      push_neg at hninv
      obtain ⟨h1, h2, h3⟩ := hninv
      refine ⟨"Invalid endpoint: " ++ endpoint, ?_⟩
      simp [retrieve, h1, h2, h3]

/-- Witness for C1: the non-retryable status 404 on the first attempt
resolves to null after exactly one call. -/
theorem C1_resolves_absent_never_rejects_witness :
    doing (fun _ => Except.error { status := some 404 }) (fun v => v) =
      Except.ok (JSVal.null, 1) :=
  (C1_resolves_absent_never_rejects
    (fun _ => Except.error { status := some 404 }) (fun v => v)).2.1
    { status := some 404 } rfl rfl

/-- C2: Every logical call terminates after at most 4 HTTP attempts
(1 initial + 3 retries) for every transport behavior; the fuel in the
embedding is inert for every sufficient value; and against a transport
that always fails with a 5xx status exactly 4 calls are issued and the
result is null. -/
theorem C2_at_most_four_attempts (t : Nat → Except AxiosErr JSVal)
    (cb : JSVal → JSVal) :
    (∀ v n, doing t cb = Except.ok (v, n) → n ≤ 4) ∧
    (∀ fuel, 3 < fuel → doingGo t cb 0 fuel = doing t cb) ∧
    ((∀ i, ∃ s, t i = Except.error { status := some s } ∧ 500 ≤ s) →
      doing t cb = Except.ok (JSVal.null, 4)) := by
  refine ⟨?_, ?_, ?_⟩
  · intro v n h
    have := (doingGo_count_bounds t cb 4 0 v n h).2
    omega
  · intro fuel hf
    exact doingGo_fuel_congr t cb fuel 4 0 (by omega) (by omega)
  · intro hall
    obtain ⟨s0, h0, hs0⟩ := hall 0
    obtain ⟨s1, h1, hs1⟩ := hall 1
    obtain ⟨s2, h2, hs2⟩ := hall 2
    obtain ⟨s3, h3, hs3⟩ := hall 3
    have hr0 : shouldRetry { status := some s0 } = true := by
      simp [shouldRetry]
      omega
    have hr1 : shouldRetry { status := some s1 } = true := by
      simp [shouldRetry]
      omega
    have hr2 : shouldRetry { status := some s2 } = true := by
      simp [shouldRetry]
      omega
    simp [doing, doingGo, h0, h1, h2, h3, hr0, hr1, hr2, Except.map]

/-- Witness for C2: the always-503 transport yields null after exactly
4 attempts. -/
theorem C2_at_most_four_attempts_witness :
    doing (fun _ => Except.error { status := some 503 }) (fun v => v) =
      Except.ok (JSVal.null, 4) :=
  (C2_at_most_four_attempts
    (fun _ => Except.error { status := some 503 }) (fun v => v)).2.2
    (fun _ => ⟨503, rfl, by omega⟩)

theorem doingGo_error_step_retry (t : Nat → Except AxiosErr JSVal)
    (cb : JSVal → JSVal) (retry fuel : Nat) (e : AxiosErr)
    (ht : t retry = Except.error e) (hc : shouldRetry e = true ∧ retry < 3) :
    doingGo t cb retry (fuel + 1) =
      (doingGo t cb (retry + 1) fuel).map fun p => (p.1, p.2 + 1) := by
  simp only [doingGo, ht]
  rw [if_pos hc]

/-- C3 counterexample: the claim says a 429 rate-limit failure is
retried, but the pinned revision classifies only missing-response and
5xx failures as retryable: an always-429 transport resolves null after
exactly one HTTP attempt, with no retry issued. -/
theorem C3_429_not_retried_counterexample :
    shouldRetry { status := some 429 } = false ∧
    isRetryableError { status := some 429 } = true ∧
    doing (fun _ => Except.error { status := some 429 }) (fun v => v) =
      Except.ok (JSVal.null, 1) :=
  ⟨rfl, rfl, rfl⟩

/-- C3 amended: a failed HTTP call is retried (within the 3-retry cap)
exactly when the failure is a connection-level error (no response) or
a 5xx status; 429 and every other sub-500 status failure is never
retried.  Conjuncts: a retryable first failure issues at least a
second attempt; a non-retryable first failure resolves null after one
attempt; and the classification holds: no response is retryable, 5xx
is retryable, every status below 500 (429 included) is not. -/
theorem C3_amended_retry_classification (t : Nat → Except AxiosErr JSVal)
    (cb : JSVal → JSVal) (e : AxiosErr) (h0 : t 0 = Except.error e) :
    (shouldRetry e = true → ∃ v n, doing t cb = Except.ok (v, n) ∧ 2 ≤ n) ∧
    (shouldRetry e = false → doing t cb = Except.ok (JSVal.null, 1)) ∧
    shouldRetry { status := none } = true ∧
    (∀ s, 500 ≤ s → shouldRetry { status := some s } = true) ∧
    (∀ s, s < 500 → shouldRetry { status := some s } = false) := by
  refine ⟨?_, ?_, rfl, ?_, ?_⟩
  · intro hsr
    obtain ⟨v, n, hok⟩ := doingGo_ok t cb 3 1
    have hb := (doingGo_count_bounds t cb 3 1 v n hok).1
    refine ⟨v, n + 1, ?_, by omega⟩
    show doingGo t cb 0 4 = _
    rw [show (4 : Nat) = 3 + 1 from rfl,
      doingGo_error_step_retry t cb 0 3 e h0 ⟨hsr, by omega⟩,
      show (0 : Nat) + 1 = 1 from rfl, hok]
    rfl
  · intro hsr
    show doingGo t cb 0 4 = _
    simp only [doingGo, h0]
    rw [if_neg (by simp [hsr])]
  · intro s hs
    simp [shouldRetry]
    omega
  · intro s hs
    simp [shouldRetry]
    omega

/-- Witness for C3 amended: a connection-level failure of the first
attempt leads to at least a second attempt. -/
theorem C3_amended_retry_classification_witness :
    ∃ v n, doing (fun _ => Except.error { status := none }) (fun v => v) =
      Except.ok (v, n) ∧ 2 ≤ n :=
  (C3_amended_retry_classification (fun _ => Except.error { status := none })
    (fun v => v) { status := none } rfl).1 rfl

/-- C4: when the callback produces an empty value (falsy, or an empty
array) on the first attempt and fewer than 3 retries were attempted,
the call is re-issued with the attempt counter incremented against the
same transport; with an empty first result and a populated second
result, exactly 2 calls are issued and the populated result is
resolved. -/
theorem C4_empty_result_retried (t : Nat → Except AxiosErr JSVal)
    (cb : JSVal → JSVal) (v0 v1 : JSVal)
    (h0 : t 0 = Except.ok v0) (h1 : t 1 = Except.ok v1)
    (he : isEmpty (cb v0) = true) (hp : isEmpty (cb v1) = false) :
    doing t cb = Except.ok (cb v1, 2) := by
  show doingGo t cb 0 4 = _
  simp only [doingGo, h0]
  rw [if_pos ⟨he, by omega⟩]
  have h1' : t (0 + 1) = Except.ok v1 := h1
  simp only [doingGo, h1']
  rw [if_neg (by simp [hp])]
  simp [Except.map, nullish_of_not_empty hp]

/-- Witness for C4: empty string result first, populated string
second: two calls, populated result. -/
theorem C4_empty_result_retried_witness :
    doing (fun i => if i = 0 then Except.ok (JSVal.str "")
        else Except.ok (JSVal.str "data")) (fun v => v) =
      Except.ok (JSVal.str "data", 2) :=
  C4_empty_result_retried
    (fun i => if i = 0 then Except.ok (JSVal.str "") else Except.ok (JSVal.str "data"))
    (fun v => v) (JSVal.str "") (JSVal.str "data") rfl rfl rfl rfl

/-- C5: an endpoint selector outside the set info, text, audio makes
retrieve fail synchronously with the message naming the selector, and
the call never resolves to a request description (so never to an
absent result). -/
theorem C5_invalid_endpoint_throws (endpoint : String) (p : ReqParams)
    (h : ¬(endpoint = "info" ∨ endpoint = "text" ∨ endpoint = "audio")) :
    retrieve endpoint p = Except.error ("Invalid endpoint: " ++ endpoint) ∧
    ∀ cfg, retrieve endpoint p ≠ Except.ok cfg := by
  push_neg at h
  obtain ⟨h1, h2, h3⟩ := h
  constructor
  · simp [retrieve, h1, h2, h3]
  · intro cfg hcfg
    simp [retrieve, h1, h2, h3] at hcfg

/-- Witness for C5: the selector from the integration test. -/
theorem C5_invalid_endpoint_throws_witness :
    retrieve "invalid" {} = Except.error ("Invalid endpoint: " ++ "invalid") :=
  (C5_invalid_endpoint_throws "invalid" {} (by decide)).1

/-- C6 counterexample: undefinedFields does not strip empty-array
fields.  An empty array is truthy in JavaScript, so the filter keeps
the field and the recursion maps the empty array to itself: on the
object from the claim the result keeps the empty-array field next to
the populated one, instead of retaining only the populated field. -/
theorem C6_empty_array_retained_counterexample :
    undefinedFields (JSVal.obj [("emptyArr", JSVal.arr []),
        ("undef", JSVal.undef), ("populated", JSVal.str "x")]) =
      JSVal.obj [("emptyArr", JSVal.arr []), ("populated", JSVal.str "x")] ∧
    JSVal.obj [("emptyArr", JSVal.arr []), ("populated", JSVal.str "x")] ≠
      JSVal.obj [("populated", JSVal.str "x")] := by
  constructor
  · rw [undefinedFields_obj]
    simp [truthy, isObject, undefinedFields_arr]
  · simp

/-- C6 amended: undefinedFields recursively strips every field whose
value is falsy (undefined, null, empty string, 0, false) from nested
objects and filters falsy elements out of arrays; empty arrays and
empty objects are truthy, hence retained.  On a nested object holding
an empty array, an undefined field and a populated field it keeps the
populated field and the empty-array field at the inner depth, dropping
only the undefined field. -/
theorem C6_amended_strip_falsy_fields (fs : List (String × JSVal)) (xs : List JSVal) :
    undefinedFields (JSVal.obj fs) =
      JSVal.obj ((fs.filter fun p => truthy p.2).map fun p =>
        (p.1, if isObject p.2 then undefinedFields p.2 else p.2)) ∧
    undefinedFields (JSVal.arr xs) =
      JSVal.arr ((xs.filter truthy).map fun v =>
        if isObject v then undefinedFields v else v) ∧
    truthy (JSVal.arr []) = true ∧
    undefinedFields (JSVal.obj [("outer",
        JSVal.obj [("emptyArr", JSVal.arr []), ("undef", JSVal.undef),
          ("populated", JSVal.str "x")])]) =
      JSVal.obj [("outer",
        JSVal.obj [("emptyArr", JSVal.arr []), ("populated", JSVal.str "x")])] := by
  refine ⟨undefinedFields_obj fs, undefinedFields_arr xs, rfl, ?_⟩
  simp [undefinedFields_obj, undefinedFields_arr, truthy, isObject]

/-- C10: the filter in undefinedFields tests plain JavaScript
truthiness, so every falsy field value is dropped, not only undefined,
null and empty string: a field holding 0, false, or the empty string
disappears from objects, and falsy elements are filtered out of
arrays.  In particular an inverted frequency rank of 0 would not
survive normalization. -/
theorem C10_falsy_fields_dropped :
    (∀ (k : String) (v : JSVal) (fs : List (String × JSVal)),
      truthy v = false →
        undefinedFields (JSVal.obj ((k, v) :: fs)) =
          undefinedFields (JSVal.obj fs)) ∧
    truthy (JSVal.num 0) = false ∧
    truthy (JSVal.bool false) = false ∧
    truthy (JSVal.str "") = false ∧
    (∀ (v : JSVal) (xs : List JSVal), truthy v = false →
      undefinedFields (JSVal.arr (v :: xs)) = undefinedFields (JSVal.arr xs)) := by
  refine ⟨?_, rfl, rfl, rfl, ?_⟩
  · intro k v fs hv
    rw [undefinedFields_obj, undefinedFields_obj]
    simp [List.filter_cons, hv]
  · intro v xs hv
    rw [undefinedFields_arr, undefinedFields_arr]
    simp [List.filter_cons, hv]

/-- Witness for C10: a frequency field holding 0 is dropped. -/
theorem C10_falsy_fields_dropped_witness :
    undefinedFields (JSVal.obj [("frequency", JSVal.num 0),
        ("word", JSVal.str "hola")]) =
      undefinedFields (JSVal.obj [("word", JSVal.str "hola")]) :=
  C10_falsy_fields_dropped.1 "frequency" (JSVal.num 0)
    [("word", JSVal.str "hola")] rfl

theorem encodeURIComponent_replicate_a_length (n : Nat) :
    (encodeURIComponent (String.mk (List.replicate n 'a'))).length = n := by
  unfold encodeURIComponent
  rw [show (String.mk (List.replicate n 'a')).data = List.replicate n 'a' from rfl,
    List.map_replicate]
  rw [show (if uriUnescaped 'a' then ('a').toString
      else String.join ((utf8Bytes 'a').map percentEncode)) = "a" from by decide]
  simp [String.length, String.data_join, List.map_replicate]

/-- C7: getTranslationText resolves null with no network call exactly
when the escaped query exceeds 7500 characters; shorter queries reach
the transport layer. -/
theorem C7_escaped_length_gate (parsedSource parsedTarget query : String) :
    ((encodeURIComponent query).length > 7500 →
      getTranslationTextRequest parsedSource parsedTarget query = none) ∧
    ((encodeURIComponent query).length ≤ 7500 →
      ∃ cfg, getTranslationTextRequest parsedSource parsedTarget query =
        some (Except.ok cfg)) := by
  constructor
  · intro h
    simp only [getTranslationTextRequest]
    rw [if_pos h]
  · intro h
    simp only [getTranslationTextRequest]
    rw [if_neg (by omega)]
    exact ⟨_, rfl⟩

/-- Witness for C7: a 7501-character query is rejected without a
network call; the short query from the spec example goes through. -/
theorem C7_escaped_length_gate_witness :
    getTranslationTextRequest "en" "es" (String.mk (List.replicate 7501 'a')) =
      none ∧
    ∃ cfg, getTranslationTextRequest "en" "es" "win" = some (Except.ok cfg) :=
  ⟨(C7_escaped_length_gate "en" "es" _).1
      (by rw [encodeURIComponent_replicate_a_length]; omega),
    (C7_escaped_length_gate "en" "es" "win").2 (by decide)⟩

/-- C8: the claim says the query term placed in the text request URL
is the once-escaped form of the original query, the same form the
7500-character gate measures.  In the code the caller escapes the
query and also hands the escaped form to retrieve, which escapes it
again, so the URL carries the twice-escaped form whenever the query
contains characters that escaping changes: for the query "a b" the
gate measures a%20b while the URL carries q=a%2520b. -/
theorem C8_text_query_escaped_twice :
    encodeURIComponent "a b" = "a%20b" ∧
    getTranslationTextRequest "en" "es" "a b" =
      some (Except.ok
        { method := "GET"
          url := "https://translate.google.com/m?sl=en&tl=es&q=a%2520b"
          timeout := 30000 }) ∧
    "a%2520b" = encodeURIComponent (encodeURIComponent "a b") ∧
    encodeURIComponent "a b" ≠ "a%2520b" := by
  refine ⟨rfl, rfl, rfl, by decide⟩

/-- C9: every emitted extra-translation entry comes from a raw entry
of the payload and carries the inverted frequency 4 minus the raw
rank. -/
theorem C9_frequency_inverted (slot : Option (List RawExtraTransGroup))
    (g : ExtraTransGroup) (e : ExtraTransEntry)
    (hg : g ∈ list_translations slot) (he : e ∈ g.list) :
    ∃ rg ∈ slot.getD [], ∃ re ∈ rg.transList.getD [],
      g.type = rg.type ∧ e = extraTransEntry re ∧
      e.frequency = 4 - re.frequency := by
  cases slot with
  | none => simp [list_translations] at hg
  | some groups =>
    simp only [list_translations, Option.map_some', Option.getD_some] at hg ⊢
    obtain ⟨rg, hrg, rfl⟩ := List.mem_map.mp hg
    refine ⟨rg, hrg, ?_⟩
    simp only at he
    cases htr : rg.transList with
    | none =>
      rw [htr] at he
      simp at he
    | some ts =>
      rw [htr] at he
      simp only [Option.map_some', Option.getD_some] at he
      obtain ⟨re, hre, rfl⟩ := List.mem_map.mp he
      refine ⟨re, by simp [htr, hre], rfl, rfl, rfl⟩

/-- Witness for C9: a raw entry with rank 1 is emitted with
frequency 3. -/
theorem C9_frequency_inverted_witness :
    ∃ rg ∈ (some [(⟨"noun", some [⟨"hola", none, ["hi"], 1⟩]⟩ : RawExtraTransGroup)] :
        Option (List RawExtraTransGroup)).getD [],
      ∃ re ∈ rg.transList.getD [],
        (⟨"noun", [⟨"hola", none, ["hi"], 3⟩]⟩ : ExtraTransGroup).type = rg.type ∧
        (⟨"hola", none, ["hi"], 3⟩ : ExtraTransEntry) = extraTransEntry re ∧
        (⟨"hola", none, ["hi"], 3⟩ : ExtraTransEntry).frequency = 4 - re.frequency :=
  C9_frequency_inverted _ _ _ (by decide) (by decide)
